import Mathlib

/-!
Verification of the algod REST client (`src/algosdk/algod.py`).

The source is a thin HTTP client.  We shallowly embed it: Python dicts
become association lists with overwrite-on-update semantics, `json.loads`
becomes a fueled recursive-descent parser, `urllib.parse.urlencode` (with
its default `quote_plus` quoting) and `base64.b64encode`/`b64decode` are
written out, and the network is an explicit `HttpOutcome` argument.  The
modules `constants`, `error` and `encoding` that `algod.py` imports are
not part of the sources; the definitions taken from them are modelled
from the spec and marked as such in their doc comments.
-/

namespace Algod

/-! ## Python dict operations (string-valued dicts, e.g. header maps) -/

/-- Whether the association list has an entry for key `k`. -/
def hasKey (m : List (String × String)) (k : String) : Bool :=
  m.any (fun p => p.1 == k)

/-- Python dict assignment `m[k] = v`: overwrite in place if `k` is
present, else append at the end (insertion order preserved). -/
def dictInsert (m : List (String × String)) (k v : String) :
    List (String × String) :=
  if hasKey m k then m.map (fun p => if p.1 == k then (k, v) else p)
  else m ++ [(k, v)]

/-- Python `m.update(upd)`: assign every entry of `upd` into `m`. -/
def dictUpdate (m upd : List (String × String)) : List (String × String) :=
  upd.foldl (fun acc p => dictInsert acc p.1 p.2) m

/-- Python `m[k]` lookup (first entry with key `k`). -/
def dictLookup (m : List (String × String)) (k : String) : Option String :=
  match m with
  | [] => none
  | p :: rest => if p.1 == k then some p.2 else dictLookup rest k

/-! ## JSON values and `json.loads` -/

/-- JSON values.  Numbers keep their source lexeme: no claim inspects a
numeric value, and this avoids committing to a float representation. -/
inductive Json where
  | null
  | bool (b : Bool)
  | num (lexeme : String)
  | str (s : String)
  | arr (items : List Json)
  | obj (fields : List (String × Json))
deriving Repr

/-- Lookup in a JSON object's field list (first match). -/
def lookupField : List (String × Json) → String → Option Json
  | [], _ => none
  | p :: rest, k => if p.1 == k then some p.2 else lookupField rest k

/-- Python subscript `j[k]`: `some` value for a dict containing the key;
`none` models the KeyError / TypeError raised otherwise. -/
def Json.getField : Json → String → Option Json
  | Json.obj fields, k => lookupField fields k
  | _, _ => none

/-- Skip JSON whitespace. -/
def skipWs : List Char → List Char
  | c :: rest =>
      if c = ' ' ∨ c = '\t' ∨ c = '\n' ∨ c = '\r' then skipWs rest
      else c :: rest
  | [] => []

/-- Hex digit value. -/
def hexVal (c : Char) : Option Nat :=
  if '0' ≤ c ∧ c ≤ '9' then some (c.toNat - '0'.toNat)
  else if 'a' ≤ c ∧ c ≤ 'f' then some (c.toNat - 'a'.toNat + 10)
  else if 'A' ≤ c ∧ c ≤ 'F' then some (c.toNat - 'A'.toNat + 10)
  else none

/-- Parse the body of a JSON string literal (opening quote consumed):
returns the decoded characters and the remaining input. -/
def pStringChars : List Char → Option (List Char × List Char)
  | [] => none
  | '"' :: rest => some ([], rest)
  | '\\' :: e :: rest =>
      if e = '"' then (pStringChars rest).map (fun r => ('"' :: r.1, r.2))
      else if e = '\\' then (pStringChars rest).map (fun r => ('\\' :: r.1, r.2))
      else if e = '/' then (pStringChars rest).map (fun r => ('/' :: r.1, r.2))
      else if e = 'b' then (pStringChars rest).map (fun r => (Char.ofNat 8 :: r.1, r.2))
      else if e = 'f' then (pStringChars rest).map (fun r => (Char.ofNat 12 :: r.1, r.2))
      else if e = 'n' then (pStringChars rest).map (fun r => ('\n' :: r.1, r.2))
      else if e = 'r' then (pStringChars rest).map (fun r => ('\r' :: r.1, r.2))
      else if e = 't' then (pStringChars rest).map (fun r => ('\t' :: r.1, r.2))
      else if e = 'u' then
        match rest with
        | h1 :: h2 :: h3 :: h4 :: rest2 =>
            match hexVal h1, hexVal h2, hexVal h3, hexVal h4 with
            | some a, some b, some c, some d =>
                (pStringChars rest2).map
                  (fun r => (Char.ofNat (((a * 16 + b) * 16 + c) * 16 + d) :: r.1, r.2))
            | _, _, _, _ => none
        | _ => none
      else none
  | c :: rest =>
      if c.toNat < 32 then none
      else (pStringChars rest).map (fun r => (c :: r.1, r.2))

/-- Take a maximal run of decimal digits. -/
def takeDigits : List Char → List Char × List Char
  | c :: rest =>
      if c.isDigit then
        let r := takeDigits rest
        (c :: r.1, r.2)
      else ([], c :: rest)
  | [] => ([], [])

/-- Parse the fraction/exponent tail of a JSON number; `intPart` is the
already-consumed sign and integer part. -/
def pNumTail (intPart : List Char) (s : List Char) :
    Option (List Char × List Char) :=
  let fr : Option (List Char × List Char) :=
    match s with
    | '.' :: r =>
        match takeDigits r with
        | ([], _) => none
        | (ds, r2) => some ('.' :: ds, r2)
    | _ => some ([], s)
  match fr with
  | none => none
  | some (fpart, s2) =>
      let ex : Option (List Char × List Char) :=
        match s2 with
        | e :: r =>
            if e = 'e' ∨ e = 'E' then
              let sgnr : List Char × List Char :=
                match r with
                | '+' :: rr => (['+'], rr)
                | '-' :: rr => (['-'], rr)
                | _ => ([], r)
              match takeDigits sgnr.2 with
              | ([], _) => none
              | (ds, r2) => some (e :: sgnr.1 ++ ds, r2)
            else some ([], s2)
        | [] => some ([], s2)
      match ex with
      | none => none
      | some (epart, s3) => some (intPart ++ fpart ++ epart, s3)

/-- Parse a JSON number (strict grammar: no leading zeros, `-` only). -/
def pNumber (s : List Char) : Option (List Char × List Char) :=
  let sgn : List Char × List Char :=
    match s with
    | '-' :: r => (['-'], r)
    | _ => ([], s)
  match sgn.2 with
  | '0' :: r => pNumTail (sgn.1 ++ ['0']) r
  | c :: r =>
      if c.isDigit then
        let ds := takeDigits r
        pNumTail (sgn.1 ++ c :: ds.1) ds.2
      else none
  | [] => none

mutual

/-- Parse one JSON value (fueled recursive descent, strict grammar like
CPython's `json.loads` scanner). -/
def pVal : Nat → List Char → Option (Json × List Char)
  | 0, _ => none
  | Nat.succ fuel, s =>
    match skipWs s with
    | 'n' :: 'u' :: 'l' :: 'l' :: rest => some (Json.null, rest)
    | 't' :: 'r' :: 'u' :: 'e' :: rest => some (Json.bool true, rest)
    | 'f' :: 'a' :: 'l' :: 's' :: 'e' :: rest => some (Json.bool false, rest)
    | '"' :: rest => (pStringChars rest).map (fun r => (Json.str (String.mk r.1), r.2))
    | '[' :: rest =>
        (match skipWs rest with
         | ']' :: rest2 => some (Json.arr [], rest2)
         | s2 => (pArrItems fuel s2).map (fun r => (Json.arr r.1, r.2)))
    | '\x7b' :: rest =>
        (match skipWs rest with
         | '\x7d' :: rest2 => some (Json.obj [], rest2)
         | s2 => (pObjItems fuel s2).map (fun r => (Json.obj r.1, r.2)))
    | c :: rest =>
        if c = '-' ∨ c.isDigit then
          (pNumber (c :: rest)).map (fun r => (Json.num (String.mk r.1), r.2))
        else none
    | [] => none

/-- Parse the comma-separated items of a non-empty JSON array, including
the closing bracket. -/
def pArrItems : Nat → List Char → Option (List Json × List Char)
  | 0, _ => none
  | Nat.succ fuel, s =>
    match pVal fuel s with
    | none => none
    | some (v, rest) =>
        match skipWs rest with
        | ',' :: rest2 =>
            match pArrItems fuel rest2 with
            | none => none
            | some (vs, rest3) => some (v :: vs, rest3)
        | ']' :: rest2 => some ([v], rest2)
        | _ => none

/-- Parse the comma-separated members of a non-empty JSON object,
including the closing brace. -/
def pObjItems : Nat → List Char → Option (List (String × Json) × List Char)
  | 0, _ => none
  | Nat.succ fuel, s =>
    match skipWs s with
    | '"' :: rest =>
        match pStringChars rest with
        | none => none
        | some (kcs, rest2) =>
            match skipWs rest2 with
            | ':' :: rest3 =>
                match pVal fuel rest3 with
                | none => none
                | some (v, rest4) =>
                    match skipWs rest4 with
                    | ',' :: rest5 =>
                        match pObjItems fuel rest5 with
                        | none => none
                        | some (fs, rest6) => some ((String.mk kcs, v) :: fs, rest6)
                    | '\x7d' :: rest5 => some ([(String.mk kcs, v)], rest5)
                    | _ => none
            | _ => none
    | _ => none

end

/-- Python `json.loads`: parse a whole string as one JSON value, failing
if anything but whitespace remains.  The fuel `2 * length + 2` dominates
the recursion depth of any parse of the input (each two fuel units
consume at least one character), so it never cuts off a valid parse. -/
def json_loads (s : String) : Option Json :=
  match pVal (2 * s.data.length + 2) s.data with
  | some (v, rest) => if skipWs rest = [] then some v else none
  | none => none

/-! ## `urllib.parse.urlencode` with its default `quote_plus` quoting -/

/-- UTF-8 encoding of a code point (as byte values). -/
def utf8Bytes (n : Nat) : List Nat :=
  if n < 128 then [n]
  else if n < 2048 then [192 + n / 64, 128 + n % 64]
  else if n < 65536 then [224 + n / 4096, 128 + n / 64 % 64, 128 + n % 64]
  else [240 + n / 262144, 128 + n / 4096 % 64, 128 + n / 64 % 64, 128 + n % 64]

/-- Uppercase hex digit. -/
def hexDigitUpper (n : Nat) : Char :=
  "0123456789ABCDEF".data.getD n '0'

/-- Percent-encode one byte. -/
def percentEncodeByte (b : Nat) : List Char :=
  ['%', hexDigitUpper (b / 16), hexDigitUpper (b % 16)]

/-- The characters `quote_plus` never encodes (CPython's always-safe
set: ASCII alphanumerics and `_.-~`). -/
def isUrlSafe (c : Char) : Bool :=
  c.isAlphanum || c = '_' || c = '.' || c = '-' || c = '~'

/-- `quote_plus` on one character: safe characters pass through, space
becomes `+`, everything else is percent-encoded per UTF-8 byte. -/
def quotePlusChar (c : Char) : List Char :=
  if isUrlSafe c then [c]
  else if c = ' ' then ['+']
  else ((utf8Bytes c.toNat).map percentEncodeByte).flatten

/-- Python `urllib.parse.quote_plus`. -/
def quote_plus (s : String) : String :=
  String.mk ((s.data.map quotePlusChar).flatten)

/-- Python `urllib.parse.urlencode` on an ordered dict of string values
(`str()` of the original value; the client passes ints and strings):
the `&`-join of the quoted `key=value` pairs. -/
def urlencode : List (String × String) → String
  | [] => ""
  | [p] => quote_plus p.1 ++ "=" ++ quote_plus p.2
  | p :: rest => quote_plus p.1 ++ "=" ++ quote_plus p.2 ++ "&" ++ urlencode rest

/-! ## `base64.b64encode` / `base64.b64decode` -/

/-- The standard base64 alphabet. -/
def b64Alphabet : List Char :=
  "ABCDEFGHIJKLMNOPQRSTUVWXYZabcdefghijklmnopqrstuvwxyz0123456789+/".data

/-- Character for a sextet value. -/
def b64Char (n : Nat) : Char :=
  b64Alphabet.getD n '?'

/-- Sextet value of an alphabet character (`none` off-alphabet). -/
def b64Val (c : Char) : Option Nat :=
  b64Alphabet.findIdx? (fun x => x == c)

/-- `base64.b64encode` on byte values, producing the padded character
stream three bytes at a time. -/
def b64encodeChunks : List Nat → List Char
  | [] => []
  | [a] => [b64Char (a / 4), b64Char (a % 4 * 16), '=', '=']
  | [a, b] => [b64Char (a / 4), b64Char (a % 4 * 16 + b / 16), b64Char (b % 16 * 4), '=']
  | a :: b :: c :: rest =>
      b64Char (a / 4) :: b64Char (a % 4 * 16 + b / 16) ::
        b64Char (b % 16 * 4 + c / 64) :: b64Char (c % 64) :: b64encodeChunks rest

/-- `base64.b64decode` on the character stream, four characters at a
time; padding only at the end. Like CPython, trailing bits under the
padding are discarded.  (CPython additionally skips characters outside
the alphabet; the claims only concern well-formed base64, on which the
two agree.) -/
def b64decodeChunks : List Char → Option (List Nat)
  | [] => some []
  | c1 :: c2 :: c3 :: c4 :: rest =>
      if c3 = '=' ∧ c4 = '=' ∧ rest = [] then
        match b64Val c1, b64Val c2 with
        | some x, some y => some [x * 4 + y / 16]
        | _, _ => none
      else if c4 = '=' ∧ rest = [] then
        match b64Val c1, b64Val c2, b64Val c3 with
        | some x, some y, some z => some [x * 4 + y / 16, y % 16 * 16 + z / 4]
        | _, _, _ => none
      else
        match b64Val c1, b64Val c2, b64Val c3, b64Val c4, b64decodeChunks rest with
        | some x, some y, some z, some w, some tail =>
            some ((x * 4 + y / 16) :: (y % 16 * 16 + z / 4) :: (z % 4 * 64 + w) :: tail)
        | _, _, _, _, _ => none
  | _ => none

/-- `base64.b64encode` (bytes to string). -/
def b64encode (bs : List Nat) : String :=
  String.mk (b64encodeChunks bs)

/-- `base64.b64decode` (string to bytes; `none` models `binascii.Error`). -/
def b64decode (s : String) : Option (List Nat) :=
  b64decodeChunks s.data

/-! ## Constants, errors and encoding collaborators

`algod.py` imports `constants`, `error` and `encoding` from its package;
those files are not among the sources, so their pieces are modelled from
the spec. -/

/-- Modelled from the spec: `constants.no_auth`, the fixed allow-list of
no-auth paths ("health-check-style or public endpoints"); the spec does
not enumerate it beyond that, so it holds the health check. -/
def no_auth : List String := ["/health"]

/-- Modelled from the spec: `constants.unversioned_paths`, the fixed
allow-list of unversioned endpoints, "e.g. `/versions`, `/health`". -/
def unversioned_paths : List String := ["/health", "/versions"]

/-- Modelled from the spec: `constants.algod_auth_header`, the fixed
auth header name; the spec fixes the name but does not spell it. -/
def algod_auth_header : String := "X-Algo-API-Token"

/-- Modelled from the spec: `constants.api_version_path_prefix`, the
fixed API-version path segment; `/v1` per the spec's `blockInfo(100)`
example issuing `GET /v1/block/100`. -/
def api_version_path : String := "/v1"

/-- Errors a call can surface.  `transportError` models
`urllib.error.URLError` escaping `urlopen` (only `HTTPError` is caught);
`algodHTTPError` models `error.AlgodHTTPError` (modelled from the spec:
the node-API error type carrying a message, from the missing `error`
module); `jsonDecodeError` models `json.JSONDecodeError` from the final
`json.loads`; `keyError` models a failed subscript on the decoded
response; `binasciiError` models `binascii.Error` from `b64decode`. -/
inductive AlgodError where
  | transportError
  | algodHTTPError (msg : Json)
  | jsonDecodeError (body : String)
  | keyError (key : String)
  | binasciiError

/-- Exceptions that the inner `try` block of the HTTP-error handler can
terminate with: the `raise error.AlgodHTTPError(json.loads(e)["message"])`
itself, or `json.loads` / subscript failures inside its argument. -/
inductive PyExn where
  | raisedAlgodHTTPError (msg : Json)
  | jsonDecodeExn
  | lookupExn

/-- Outcome of `urlopen` on the prepared request, supplied by the
environment: a 2xx response with a body, an `HTTPError` with an error
body (read and UTF-8 decoded), or a transport failure. -/
inductive HttpOutcome where
  | success (body : String)
  | httpError (body : String)
  | transportFailure

/-- The client: `__init__` stores the three arguments. -/
structure AlgodClient where
  algod_token : String
  algod_address : String
  extended_header : List (String × String)

/-- The outbound HTTP request as handed to `Request(...)`. -/
structure PreparedRequest where
  method : String
  url : String
  headers : List (String × String)
  data : Option (List Nat)

/-- The inner `try` block of the HTTPError handler, lines 69-70:
`raise error.AlgodHTTPError(json.loads(e)["message"])`.  It always ends
in an exception: the `AlgodHTTPError` it builds when parsing and
subscripting succeed, or the failure of `json.loads` / `["message"]`. -/
def innerTryBlock (body : String) : PyExn :=
  match json_loads body with
  | none => PyExn.jsonDecodeExn
  | some j =>
      match j.getField "message" with
      | none => PyExn.lookupExn
      | some m => PyExn.raisedAlgodHTTPError m

/-- Lines 67-72 of `algod_request`: the `except urllib.error.HTTPError`
branch.  The bare `except:` on line 71 catches whatever the inner `try`
block raised — including the `AlgodHTTPError` raised on line 70 itself —
so every path ends in `raise error.AlgodHTTPError(e)` with `e` the raw
body text. -/
def handleHTTPError (body : String) : AlgodError :=
  match innerTryBlock body with
  | PyExn.raisedAlgodHTTPError _ => AlgodError.algodHTTPError (Json.str body)
  | PyExn.jsonDecodeExn => AlgodError.algodHTTPError (Json.str body)
  | PyExn.lookupExn => AlgodError.algodHTTPError (Json.str body)

/-- Lines 44-55: build the header dict — start empty, update with the
configured `extended_header` if truthy, then with `opt_header` if
truthy, then add the auth header unless the path is in `no_auth`. -/
def buildHeaders (c : AlgodClient) (opt_header : List (String × String))
    (requrl : String) : List (String × String) :=
  let header : List (String × String) := []
  let header := if c.extended_header = [] then header
    else dictUpdate header c.extended_header
  let header := if opt_header = [] then header
    else dictUpdate header opt_header
  if requrl ∈ no_auth then header
  else dictUpdate header [(algod_auth_header, c.algod_token)]

/-- Lines 57-60: prepend the version segment unless the path is
unversioned, then append the url-encoded query if `params` is truthy. -/
def requestPath (requrl : String) (params : List (String × String)) : String :=
  let requrl := if requrl ∈ unversioned_paths then requrl
    else api_version_path ++ requrl
  if params = [] then requrl else requrl ++ "?" ++ urlencode params

/-- What a call to `algod_request` yields: the client's fields after the
call (the method body never assigns to `self`), the request handed to
`urlopen`, and the returned value or raised error. -/
structure CallResult where
  client : AlgodClient
  request : PreparedRequest
  result : Except AlgodError Json

/-- `AlgodClient.algod_request`, lines 30-73, with the `urlopen` outcome
an explicit argument. -/
def algod_request (c : AlgodClient) (method requrl : String)
    (params : List (String × String)) (data : Option (List Nat))
    (opt_header : List (String × String)) (outcome : HttpOutcome) : CallResult :=
  let req : PreparedRequest :=
    { method := method
      url := c.algod_address ++ requestPath requrl params
      headers := buildHeaders c opt_header requrl
      data := data }
  let result : Except AlgodError Json :=
    match outcome with
    | HttpOutcome.transportFailure => Except.error AlgodError.transportError
    | HttpOutcome.httpError body => Except.error (handleHTTPError body)
    | HttpOutcome.success body =>
        match json_loads body with
        | some j => Except.ok j
        | none => Except.error (AlgodError.jsonDecodeError body)
  { client :=
      { algod_token := c.algod_token
        algod_address := c.algod_address
        extended_header := c.extended_header }
    request := req
    result := result }

/-! ## Endpoint wrappers -/

/-- `status`. -/
def status (c : AlgodClient) (outcome : HttpOutcome) : CallResult :=
  algod_request c "GET" "/status" [] none [] outcome

/-- `health`. -/
def health (c : AlgodClient) (outcome : HttpOutcome) : CallResult :=
  algod_request c "GET" "/health" [] none [] outcome

/-- `status_after_block`. -/
def status_after_block (c : AlgodClient) (block_num : Int)
    (outcome : HttpOutcome) : CallResult :=
  algod_request c "GET" ("/status/wait-for-block-after/" ++ toString block_num)
    [] none [] outcome

/-- `pending_transactions` (default `max_txns=0`); the query dict
`{"max": max_txns}` is always non-empty. -/
def pending_transactions (c : AlgodClient) (max_txns : Int := 0)
    (outcome : HttpOutcome := HttpOutcome.transportFailure) : CallResult :=
  algod_request c "GET" "/transactions/pending" [("max", toString max_txns)]
    none [] outcome

/-- `versions`. -/
def versions (c : AlgodClient) (outcome : HttpOutcome) : CallResult :=
  algod_request c "GET" "/versions" [] none [] outcome

/-- `ledger_supply`. -/
def ledger_supply (c : AlgodClient) (outcome : HttpOutcome) : CallResult :=
  algod_request c "GET" "/ledger/supply" [] none [] outcome

/-- Lines 136-146: the query dict of `transactions_by_address`, each key
assigned only when the argument was supplied, in source order (`toDate`
before `fromDate`).  Values are stored as the strings `urlencode` will
emit for them (`str()` of the int, the string itself). -/
def txQuery (first last limit : Option Int)
    (from_date to_date : Option String) : List (String × String) :=
  let query : List (String × String) := []
  let query := match first with
    | none => query
    | some v => dictInsert query "firstRound" (toString v)
  let query := match last with
    | none => query
    | some v => dictInsert query "lastRound" (toString v)
  let query := match limit with
    | none => query
    | some v => dictInsert query "max" (toString v)
  let query := match to_date with
    | none => query
    | some v => dictInsert query "toDate" v
  let query := match from_date with
    | none => query
    | some v => dictInsert query "fromDate" v
  query

/-- `transactions_by_address`. -/
def transactions_by_address (c : AlgodClient) (address : String)
    (first : Option Int := none) (last : Option Int := none)
    (limit : Option Int := none) (from_date : Option String := none)
    (to_date : Option String := none)
    (outcome : HttpOutcome := HttpOutcome.transportFailure) : CallResult :=
  algod_request c "GET" ("/account/" ++ address ++ "/transactions")
    (txQuery first last limit from_date to_date) none [] outcome

/-- `account_info`. -/
def account_info (c : AlgodClient) (address : String)
    (outcome : HttpOutcome) : CallResult :=
  algod_request c "GET" ("/account/" ++ address) [] none [] outcome

/-- `transaction_info`. -/
def transaction_info (c : AlgodClient) (address transaction_id : String)
    (outcome : HttpOutcome) : CallResult :=
  algod_request c "GET"
    ("/account/" ++ address ++ "/transaction/" ++ transaction_id)
    [] none [] outcome

/-- `pending_transaction_info`. -/
def pending_transaction_info (c : AlgodClient) (transaction_id : String)
    (outcome : HttpOutcome) : CallResult :=
  algod_request c "GET" ("/transactions/pending/" ++ transaction_id)
    [] none [] outcome

/-- `transaction_by_id`. -/
def transaction_by_id (c : AlgodClient) (transaction_id : String)
    (outcome : HttpOutcome) : CallResult :=
  algod_request c "GET" ("/transaction/" ++ transaction_id) [] none [] outcome

/-- `suggested_fee`. -/
def suggested_fee (c : AlgodClient) (outcome : HttpOutcome) : CallResult :=
  algod_request c "GET" "/transactions/fee" [] none [] outcome

/-- `suggested_params`. -/
def suggested_params (c : AlgodClient) (outcome : HttpOutcome) : CallResult :=
  algod_request c "GET" "/transactions/params" [] none [] outcome

/-- What a send call yields; the request is absent when `b64decode`
raised before one was prepared. -/
structure SendResult where
  client : AlgodClient
  request : Option PreparedRequest
  result : Except AlgodError Json

/-- `send_raw_transaction`, lines 201-214: base64-decode the input, POST
it to `/transactions`, and subscript the decoded response at `"txId"`. -/
def send_raw_transaction (c : AlgodClient) (txn : String)
    (request_header : List (String × String)) (outcome : HttpOutcome) :
    SendResult :=
  match b64decode txn with
  | none =>
      { client := c, request := none
        result := Except.error AlgodError.binasciiError }
  | some txnBytes =>
      let r := algod_request c "POST" "/transactions" [] (some txnBytes)
        request_header outcome
      { client := r.client
        request := some r.request
        result :=
          match r.result with
          | Except.error e => Except.error e
          | Except.ok j =>
              match j.getField "txId" with
              | some v => Except.ok v
              | none => Except.error (AlgodError.keyError "txId") }

/-- Modelled from the spec: the signed transaction objects serialized by
the missing `encoding` module.  Only their canonical deterministic
binary serialization (a byte sequence) is relevant here, so the object
is abstracted to those bytes. -/
structure SignedTransaction where
  canonicalBytes : List Nat
  bytes_lt : ∀ b ∈ canonicalBytes, b < 256

/-- Modelled from the spec: `encoding.msgpack_encode`, the canonical
binary encoding of the signed transaction object, base64-encoded. -/
def msgpack_encode (t : SignedTransaction) : String :=
  b64encode t.canonicalBytes

/-- `send_transaction`, lines 216-227. -/
def send_transaction (c : AlgodClient) (t : SignedTransaction)
    (request_header : List (String × String)) (outcome : HttpOutcome) :
    SendResult :=
  send_raw_transaction c (msgpack_encode t) request_header outcome

/-- `block_info`. -/
def block_info (c : AlgodClient) (round : Int)
    (outcome : HttpOutcome) : CallResult :=
  algod_request c "GET" ("/block/" ++ toString round) [] none [] outcome

/-- The one query entry contributed by an optional argument: nothing
when it was not supplied, a single binding of the given key when it was
(used to state which parameters `transactions_by_address` sends). -/
def optEntry (k : String) : Option String → List (String × String)
  | none => []
  | some v => [(k, v)]

end Algod

/-! ## Helper lemmas -/

namespace Algod

/-- Keys are untouched by the overwrite pass of `dictInsert`. -/
theorem hasKey_map_overwrite (m : List (String × String)) (k v k2 : String) :
    hasKey (m.map (fun p => if p.1 == k then (k, v) else p)) k2 = hasKey m k2 := by
  induction m with
  | nil => rfl
  | cons p rest ih =>
    by_cases hp : p.1 = k
    · simp [hasKey, hp] at ih ⊢
      simp [ih]
    · simp [hasKey, hp] at ih ⊢
      simp [ih]

/-- `hasKey` over an append. -/
theorem hasKey_append (m l : List (String × String)) (k2 : String) :
    hasKey (m ++ l) k2 = (hasKey m k2 || hasKey l k2) := by
  simp [hasKey]

/-- The keys after a dict assignment are the old keys plus the assigned
one. -/
theorem hasKey_dictInsert (m : List (String × String)) (k v k2 : String) :
    hasKey (dictInsert m k v) k2 = (hasKey m k2 || k == k2) := by
  by_cases hk : hasKey m k
  · rw [dictInsert, if_pos hk, hasKey_map_overwrite]
    by_cases hkk : k = k2
    · subst hkk
      simp [hk]
    · simp [hkk]
  · rw [dictInsert, if_neg hk, hasKey_append]
    simp [hasKey]

/-- The keys after `update` are the union of both key sets. -/
theorem hasKey_dictUpdate (upd m : List (String × String)) (k2 : String) :
    hasKey (dictUpdate m upd) k2 = (hasKey m k2 || hasKey upd k2) := by
  induction upd generalizing m with
  | nil => simp [dictUpdate, hasKey]
  | cons q rest ih =>
    simp only [dictUpdate] at ih ⊢
    simp only [List.foldl_cons]
    rw [ih, hasKey_dictInsert]
    simp [hasKey, Bool.or_assoc]

/-- Looking up the just-assigned key yields the just-assigned value. -/
theorem dictLookup_dictInsert_self (m : List (String × String)) (k v : String) :
    dictLookup (dictInsert m k v) k = some v := by
  induction m with
  | nil => simp [dictInsert, hasKey, dictLookup]
  | cons p rest ih =>
    by_cases hp : p.1 = k
    · have hk : hasKey (p :: rest) k = true := by simp [hasKey, hp]
      rw [dictInsert, if_pos hk]
      simp [dictLookup, hp]
    · by_cases hr : hasKey rest k
      · have hk : hasKey (p :: rest) k = true := by
          simp only [hasKey] at hr ⊢
          rw [List.any_cons, hr]
          simp
        rw [dictInsert, if_pos hk]
        rw [dictInsert, if_pos hr] at ih
        simpa [dictLookup, hp] using ih
      · have hk : hasKey (p :: rest) k = false := by
          simp only [hasKey, List.any_cons, Bool.or_eq_false_iff]
          refine ⟨by simp [hp], ?_⟩
          exact Bool.eq_false_iff.mpr hr
        rw [dictInsert, if_neg (by simp [hk])]
        rw [dictInsert, if_neg (by simp [hr])] at ih
        simpa [dictLookup, hp] using ih

/-- The just-assigned pair is an entry of the dict. -/
theorem mem_dictInsert_self (m : List (String × String)) (k v : String) :
    (k, v) ∈ dictInsert m k v := by
  by_cases hk : hasKey m k
  · rw [dictInsert, if_pos hk]
    simp only [hasKey, List.any_eq_true] at hk
    obtain ⟨p, hp, hpk⟩ := hk
    exact List.mem_map.mpr ⟨p, hp, by simp [hpk]⟩
  · rw [dictInsert, if_neg hk]
    simp

/-- `update` with a singleton dict is a single assignment. -/
theorem dictUpdate_single (m : List (String × String)) (k v : String) :
    dictUpdate m [(k, v)] = dictInsert m k v := rfl

end Algod

namespace Algod

/-- Decoding the character for a sextet value recovers the value. -/
theorem b64Val_b64Char : ∀ n < 64, b64Val (b64Char n) = some n := by
  decide

/-- Sextet characters are never the padding character. -/
theorem b64Char_ne_pad : ∀ n < 64, b64Char n ≠ '=' := by
  decide

/-- Decoding an encoded byte stream recovers the bytes. -/
theorem b64decodeChunks_encode (bs : List Nat) (h : ∀ b ∈ bs, b < 256) :
    b64decodeChunks (b64encodeChunks bs) = some bs := by
  induction bs using b64encodeChunks.induct with
  | case1 => rfl
  | case2 a =>
    have ha : a < 256 := h a (by simp)
    rw [b64encodeChunks, b64decodeChunks]
    rw [if_pos (by simp)]
    rw [b64Val_b64Char _ (by omega), b64Val_b64Char _ (by omega)]
    simp only [Option.some.injEq, List.cons.injEq, and_true]
    omega
  | case3 a b =>
    have ha : a < 256 := h a (by simp)
    have hb : b < 256 := h b (by simp)
    rw [b64encodeChunks, b64decodeChunks]
    rw [if_neg (by simp [b64Char_ne_pad (b % 16 * 4) (by omega)])]
    rw [if_pos (by simp)]
    rw [b64Val_b64Char _ (by omega), b64Val_b64Char _ (by omega),
      b64Val_b64Char _ (by omega)]
    simp only [Option.some.injEq, List.cons.injEq, and_true]
    omega
  | case4 a b c rest ih =>
    have ha : a < 256 := h a (by simp)
    have hb : b < 256 := h b (by simp)
    have hc : c < 256 := h c (by simp)
    have hrest : ∀ x ∈ rest, x < 256 := fun x hx => h x (by simp [hx])
    rw [b64encodeChunks, b64decodeChunks]
    rw [if_neg (by simp [b64Char_ne_pad (b % 16 * 4 + c / 64) (by omega)])]
    rw [if_neg (by simp [b64Char_ne_pad (c % 64) (by omega)])]
    rw [b64Val_b64Char _ (by omega), b64Val_b64Char _ (by omega),
      b64Val_b64Char _ (by omega), b64Val_b64Char _ (by omega), ih hrest]
    simp only [Option.some.injEq, List.cons.injEq, and_true]
    refine ⟨by omega, by omega, by omega⟩

/-- String-level base64 round trip. -/
theorem b64decode_b64encode (bs : List Nat) (h : ∀ b ∈ bs, b < 256) :
    b64decode (b64encode bs) = some bs :=
  b64decodeChunks_encode bs h

/-- An account-transactions path is never in the unversioned allow-list
(it is longer than both entries). -/
theorem account_tx_path_not_unversioned (address : String) :
    ("/account/" ++ address ++ "/transactions") ∉ unversioned_paths := by
  have hlen : ("/account/" ++ address ++ "/transactions").length
      = 9 + address.length + 13 := by
    rw [String.length_append, String.length_append]
    have h9 : ("/account/" : String).length = 9 := rfl
    have h13 : ("/transactions" : String).length = 13 := rfl
    rw [h9, h13]
  have h1 : "/account/" ++ address ++ "/transactions" ≠ "/health" := by
    intro hx
    have hx2 := congrArg String.length hx
    rw [hlen] at hx2
    have h7 : ("/health" : String).length = 7 := rfl
    rw [h7] at hx2
    omega
  have h2 : "/account/" ++ address ++ "/transactions" ≠ "/versions" := by
    intro hx
    have hx2 := congrArg String.length hx
    rw [hlen] at hx2
    have h9 : ("/versions" : String).length = 9 := rfl
    rw [h9] at hx2
    omega
  simp [unversioned_paths, h1, h2]

end Algod

/-! ## Claim theorems -/

namespace Algod

/-- C1: claimed — for an HTTP-error response, the raised error's text is
the body's `message` field when the body is JSON with such a field, and
the raw body otherwise.  What the code does instead: the inner `raise
error.AlgodHTTPError(json.loads(e)["message"])` is itself caught by the
bare `except:`, so the raised error always carries the raw body text —
here evaluated on the claim's own example, whose `message` field does
parse (second conjunct) yet is not what the error carries. -/
theorem http_error_text_is_raw_body :
    (∀ body : String,
      handleHTTPError body = AlgodError.algodHTTPError (Json.str body)) ∧
    innerTryBlock "\x7b\"message\":\"bad request\"\x7d"
      = PyExn.raisedAlgodHTTPError (Json.str "bad request") ∧
    (algod_request ⟨"tok", "http://localhost:8080", []⟩ "GET" "/status" [] none []
        (HttpOutcome.httpError "\x7b\"message\":\"bad request\"\x7d")).result
      = Except.error (AlgodError.algodHTTPError
          (Json.str "\x7b\"message\":\"bad request\"\x7d")) ∧
    Json.str "\x7b\"message\":\"bad request\"\x7d" ≠ Json.str "bad request" := by
  refine ⟨?_, ?_, ?_, ?_⟩
  · intro body
    rw [handleHTTPError]
    cases innerTryBlock body <;> rfl
  · rfl
  · rfl
  · simp

/-- C2: for a path outside the no-auth allow-list the header map sent
contains the auth header name mapped to the configured token; for a path
in the allow-list (when neither the configured extraHeaders nor the
per-call header carry that name) the auth header is absent. -/
theorem auth_header_presence (c : AlgodClient) (opt : List (String × String))
    (method requrl : String) (params : List (String × String))
    (data : Option (List Nat)) (outcome : HttpOutcome) :
    (requrl ∉ no_auth →
      (algod_auth_header, c.algod_token) ∈
        (algod_request c method requrl params data opt outcome).request.headers) ∧
    (requrl ∈ no_auth →
      hasKey c.extended_header algod_auth_header = false →
      hasKey opt algod_auth_header = false →
      hasKey ((algod_request c method requrl params data opt outcome).request.headers)
        algod_auth_header = false) := by
  constructor
  · intro h
    show (algod_auth_header, c.algod_token) ∈ buildHeaders c opt requrl
    rw [buildHeaders]
    rw [if_neg h, dictUpdate_single]
    exact mem_dictInsert_self _ _ _
  · intro h hext hopt
    show hasKey (buildHeaders c opt requrl) algod_auth_header = false
    rw [buildHeaders]
    rw [if_pos h]
    have hA : hasKey
        (if c.extended_header = [] then ([] : List (String × String))
         else dictUpdate [] c.extended_header) algod_auth_header = false := by
      by_cases he : c.extended_header = []
      · rw [if_pos he]
        rfl
      · rw [if_neg he, hasKey_dictUpdate, hext]
        rfl
    by_cases ho : opt = []
    · rw [if_pos ho]
      exact hA
    · rw [if_neg ho, hasKey_dictUpdate, hopt, hA]
      rfl

/-- C2 witness: auth header present for `/status`, absent for `/health`. -/
theorem auth_header_presence_w :
    ((algod_auth_header, "tok") ∈
      (algod_request ⟨"tok", "http://localhost:8080", []⟩ "GET" "/status" [] none []
        HttpOutcome.transportFailure).request.headers) ∧
    (hasKey ((algod_request ⟨"tok", "http://localhost:8080", [("Other", "v")]⟩ "GET"
        "/health" [] none [] HttpOutcome.transportFailure).request.headers)
      algod_auth_header = false) := by
  constructor
  · exact (auth_header_presence ⟨"tok", "http://localhost:8080", []⟩ [] "GET" "/status"
      [] none HttpOutcome.transportFailure).1 (by decide)
  · exact (auth_header_presence ⟨"tok", "http://localhost:8080", [("Other", "v")]⟩ []
      "GET" "/health" [] none HttpOutcome.transportFailure).2 (by decide) (by decide)
      (by decide)

/-- C3: for a path outside the unversioned allow-list, the URL sent is
the address followed by the API-version segment prepended exactly once
to the path; for a path in the allow-list, the path goes out unprefixed
(stated for calls without query parameters, which C4/C5 cover). -/
theorem version_path_versioning (c : AlgodClient) (method requrl : String)
    (data : Option (List Nat)) (opt : List (String × String)) (outcome : HttpOutcome) :
    (requrl ∉ unversioned_paths →
      (algod_request c method requrl [] data opt outcome).request.url
        = c.algod_address ++ (api_version_path ++ requrl)) ∧
    (requrl ∈ unversioned_paths →
      (algod_request c method requrl [] data opt outcome).request.url
        = c.algod_address ++ requrl) := by
  constructor
  · intro h
    show c.algod_address ++ requestPath requrl [] = _
    rw [requestPath]
    rw [if_neg h, if_pos rfl]
  · intro h
    show c.algod_address ++ requestPath requrl [] = _
    rw [requestPath]
    rw [if_pos h, if_pos rfl]

/-- C3 witness: `/status` is versioned, `/versions` is not. -/
theorem version_path_versioning_w :
    ((algod_request ⟨"tok", "addr", []⟩ "GET" "/status" [] none []
        HttpOutcome.transportFailure).request.url = "addr" ++ ("/v1" ++ "/status")) ∧
    ((algod_request ⟨"tok", "addr", []⟩ "GET" "/versions" [] none []
        HttpOutcome.transportFailure).request.url = "addr" ++ "/versions") := by
  constructor
  · exact (version_path_versioning ⟨"tok", "addr", []⟩ "GET" "/status" none []
      HttpOutcome.transportFailure).1 (by decide)
  · exact (version_path_versioning ⟨"tok", "addr", []⟩ "GET" "/versions" none []
      HttpOutcome.transportFailure).2 (by decide)

end Algod

namespace Algod

/-- C4: the query dict `transactions_by_address` sends holds exactly the
entries for the arguments the caller supplied, under the keys
`firstRound`, `lastRound`, `max`, `toDate`, `fromDate`; supplying only
`first` yields the single pair `firstRound=<v>` in the URL, and
supplying nothing appends no query string at all. -/
theorem transactions_query_exact (c : AlgodClient) (address : String)
    (outcome : HttpOutcome) :
    (∀ (first last limit : Option Int) (from_date to_date : Option String),
      txQuery first last limit from_date to_date
        = optEntry "firstRound" (first.map toString)
            ++ optEntry "lastRound" (last.map toString)
            ++ optEntry "max" (limit.map toString)
            ++ optEntry "toDate" to_date
            ++ optEntry "fromDate" from_date) ∧
    (∀ v : Int,
      (transactions_by_address c address (some v) none none none none outcome).request.url
        = c.algod_address
            ++ ((api_version_path ++ ("/account/" ++ address ++ "/transactions")) ++ "?"
              ++ ("firstRound=" ++ quote_plus (toString v)))) ∧
    ((transactions_by_address c address none none none none none outcome).request.url
        = c.algod_address ++ (api_version_path ++ ("/account/" ++ address ++ "/transactions"))) := by
  refine ⟨?_, ?_, ?_⟩
  · intro first last limit from_date to_date
    rcases first with _ | a <;> rcases last with _ | b <;> rcases limit with _ | m2 <;>
      rcases from_date with _ | fd <;> rcases to_date with _ | td <;> rfl
  · intro v
    show c.algod_address ++ requestPath ("/account/" ++ address ++ "/transactions")
      (txQuery (some v) none none none none) = _
    have hq : txQuery (some v) none none none none = [("firstRound", toString v)] := rfl
    rw [hq, requestPath]
    rw [if_neg (account_tx_path_not_unversioned address),
      if_neg (show ¬([("firstRound", toString v)] = []) from List.cons_ne_nil _ _)]
    have hu : urlencode [("firstRound", toString v)]
        = quote_plus "firstRound" ++ "=" ++ quote_plus (toString v) := rfl
    rw [hu]
    rw [show quote_plus "firstRound" = "firstRound" from rfl]
    rw [show ("firstRound" ++ "=" : String) = "firstRound=" from rfl]
  · show c.algod_address ++ requestPath ("/account/" ++ address ++ "/transactions")
      (txQuery none none none none none) = _
    have hq : txQuery none none none none none = [] := rfl
    rw [hq, requestPath]
    rw [if_neg (account_tx_path_not_unversioned address), if_pos rfl]

/-- C5: `pending_transactions 0` sends `max=0` in the query string — the
parameter is present in the URL, which differs from the URL with the
parameter omitted. -/
theorem pending_transactions_sends_max (c : AlgodClient) (outcome : HttpOutcome) :
    (∀ max_txns : Int, (pending_transactions c max_txns outcome).request.url
      = c.algod_address
          ++ ((api_version_path ++ "/transactions/pending") ++ "?"
            ++ ("max=" ++ quote_plus (toString max_txns)))) ∧
    ((pending_transactions c 0 outcome).request.url
      = c.algod_address ++ "/v1/transactions/pending?max=0") ∧
    ((pending_transactions c 0 outcome).request.url
      ≠ c.algod_address ++ "/v1/transactions/pending") := by
  have h1 : ∀ max_txns : Int, (pending_transactions c max_txns outcome).request.url
      = c.algod_address
          ++ ((api_version_path ++ "/transactions/pending") ++ "?"
            ++ ("max=" ++ quote_plus (toString max_txns))) := by
    intro v
    show c.algod_address ++ requestPath "/transactions/pending" [("max", toString v)] = _
    rw [requestPath]
    rw [if_neg (show ("/transactions/pending" : String) ∉ unversioned_paths by decide)]
    rw [if_neg (show ¬([("max", toString v)] = []) from List.cons_ne_nil _ _)]
    have hu : urlencode [("max", toString v)]
        = quote_plus "max" ++ "=" ++ quote_plus (toString v) := rfl
    rw [hu]
    rw [show quote_plus "max" = "max" from rfl]
    rw [show ("max" ++ "=" : String) = "max=" from rfl]
  have h2 : (pending_transactions c 0 outcome).request.url
      = c.algod_address ++ "/v1/transactions/pending?max=0" := by
    rw [h1 0]
    rw [show ((api_version_path ++ "/transactions/pending") ++ "?"
      ++ ("max=" ++ quote_plus (toString (0 : Int)))) = "/v1/transactions/pending?max=0" from rfl]
  refine ⟨h1, h2, ?_⟩
  intro h
  rw [h2] at h
  have hl := congrArg String.length h
  rw [String.length_append, String.length_append] at hl
  rw [show ("/v1/transactions/pending?max=0" : String).length = 30 from rfl,
    show ("/v1/transactions/pending" : String).length = 24 from rfl] at hl
  omega

/-- C6: `send_raw_transaction` POSTs the base64-decoding of its input as
the request body (`"AA=="` decodes to the single byte `0`) and, on a
successful JSON response, returns exactly the response's `txId` field
rather than the whole object. -/
theorem send_raw_transaction_posts_and_extracts (c : AlgodClient) (txn : String)
    (bytes : List Nat) (hdr : List (String × String)) (body : String) (j v : Json)
    (hdecode : b64decode txn = some bytes)
    (hjson : json_loads body = some j)
    (htx : j.getField "txId" = some v) :
    (send_raw_transaction c txn hdr (HttpOutcome.success body)).request
      = some { method := "POST"
               url := c.algod_address ++ (api_version_path ++ "/transactions")
               headers := buildHeaders c hdr "/transactions"
               data := some bytes } ∧
    (send_raw_transaction c txn hdr (HttpOutcome.success body)).result = Except.ok v ∧
    b64decode "AA==" = some [0] := by
  rw [send_raw_transaction, hdecode]
  refine ⟨rfl, ?_, rfl⟩
  have hres : (algod_request c "POST" "/transactions" [] (some bytes) hdr
      (HttpOutcome.success body)).result = Except.ok j := by
    show (match json_loads body with
      | some jj => Except.ok jj
      | none => Except.error (AlgodError.jsonDecodeError body)) = Except.ok j
    rw [hjson]
  show (match (algod_request c "POST" "/transactions" [] (some bytes) hdr
      (HttpOutcome.success body)).result with
    | Except.error e => Except.error e
    | Except.ok jj =>
        match jj.getField "txId" with
        | some vv => Except.ok vv
        | none => Except.error (AlgodError.keyError "txId")) = Except.ok v
  rw [hres]
  show (match j.getField "txId" with
    | some vv => Except.ok vv
    | none => Except.error (AlgodError.keyError "txId")) = Except.ok v
  rw [htx]

/-- C6 witness: concrete send of `"AA=="` against a `txId`-bearing
response. -/
theorem send_raw_transaction_posts_and_extracts_w :
    (send_raw_transaction ⟨"tok", "addr", []⟩ "AA==" []
        (HttpOutcome.success "\x7b\"txId\":\"abc\"\x7d")).request
      = some { method := "POST"
               url := "addr" ++ (api_version_path ++ "/transactions")
               headers := buildHeaders ⟨"tok", "addr", []⟩ [] "/transactions"
               data := some [0] } ∧
    (send_raw_transaction ⟨"tok", "addr", []⟩ "AA==" []
        (HttpOutcome.success "\x7b\"txId\":\"abc\"\x7d")).result
      = Except.ok (Json.str "abc") := by
  have h := send_raw_transaction_posts_and_extracts ⟨"tok", "addr", []⟩ "AA==" [0] []
    "\x7b\"txId\":\"abc\"\x7d" (Json.obj [("txId", Json.str "abc")]) (Json.str "abc")
    rfl rfl rfl
  exact ⟨h.1, h.2.1⟩

/-- C7: `send_transaction` behaves exactly like `send_raw_transaction`
applied to the base64 encoding of the transaction's canonical bytes, and
the POST body it sends is those canonical bytes themselves (the base64
round trip is lossless). -/
theorem send_transaction_refines_raw (c : AlgodClient) (t : SignedTransaction)
    (hdr : List (String × String)) (outcome : HttpOutcome) :
    send_transaction c t hdr outcome
      = send_raw_transaction c (msgpack_encode t) hdr outcome ∧
    (send_transaction c t hdr outcome).request
      = some { method := "POST"
               url := c.algod_address ++ (api_version_path ++ "/transactions")
               headers := buildHeaders c hdr "/transactions"
               data := some t.canonicalBytes } := by
  have hd : b64decode (msgpack_encode t) = some t.canonicalBytes :=
    b64decode_b64encode t.canonicalBytes t.bytes_lt
  refine ⟨rfl, ?_⟩
  show (send_raw_transaction c (msgpack_encode t) hdr outcome).request = _
  rw [send_raw_transaction, hd]
  exact rfl

/-- C8: a 2xx response whose body is not valid JSON surfaces as a decode
error — a kind distinct from both the transport error and the node-API
error — and it is the call's result, not swallowed. -/
theorem success_body_decode_error (c : AlgodClient) (method requrl : String)
    (params : List (String × String)) (data : Option (List Nat))
    (opt : List (String × String)) (body : String)
    (h : json_loads body = none) :
    (algod_request c method requrl params data opt (HttpOutcome.success body)).result
      = Except.error (AlgodError.jsonDecodeError body) ∧
    (∀ m : Json, AlgodError.jsonDecodeError body ≠ AlgodError.algodHTTPError m) ∧
    AlgodError.jsonDecodeError body ≠ AlgodError.transportError := by
  refine ⟨?_, ?_, ?_⟩
  · show (match json_loads body with
      | some jj => Except.ok jj
      | none => Except.error (AlgodError.jsonDecodeError body)) = _
    rw [h]
  · intro m hx
    exact AlgodError.noConfusion hx
  · intro hx
    exact AlgodError.noConfusion hx

/-- C8 witness: the non-JSON success body `"oops"`. -/
theorem success_body_decode_error_w :
    (algod_request ⟨"tok", "addr", []⟩ "GET" "/status" [] none []
      (HttpOutcome.success "oops")).result
      = Except.error (AlgodError.jsonDecodeError "oops") :=
  (success_body_decode_error ⟨"tok", "addr", []⟩ "GET" "/status" [] none [] "oops" rfl).1

/-- C9: no operation changes the client's fields — the generic request
and every endpoint wrapper return the client state exactly as it was,
whatever the HTTP outcome. -/
theorem client_fields_unchanged (c : AlgodClient) :
    (∀ method requrl params data opt outcome,
      (algod_request c method requrl params data opt outcome).client = c) ∧
    (∀ outcome, (status c outcome).client = c) ∧
    (∀ outcome, (health c outcome).client = c) ∧
    (∀ n outcome, (status_after_block c n outcome).client = c) ∧
    (∀ n outcome, (pending_transactions c n outcome).client = c) ∧
    (∀ outcome, (versions c outcome).client = c) ∧
    (∀ outcome, (ledger_supply c outcome).client = c) ∧
    (∀ address f l m fd td outcome,
      (transactions_by_address c address f l m fd td outcome).client = c) ∧
    (∀ address outcome, (account_info c address outcome).client = c) ∧
    (∀ address txid outcome, (transaction_info c address txid outcome).client = c) ∧
    (∀ txid outcome, (pending_transaction_info c txid outcome).client = c) ∧
    (∀ txid outcome, (transaction_by_id c txid outcome).client = c) ∧
    (∀ outcome, (suggested_fee c outcome).client = c) ∧
    (∀ outcome, (suggested_params c outcome).client = c) ∧
    (∀ txn hdr outcome, (send_raw_transaction c txn hdr outcome).client = c) ∧
    (∀ t hdr outcome, (send_transaction c t hdr outcome).client = c) ∧
    (∀ n outcome, (block_info c n outcome).client = c) := by
  have hraw : ∀ txn hdr outcome, (send_raw_transaction c txn hdr outcome).client = c := by
    intro txn hdr outcome
    cases hb : b64decode txn
    · rw [send_raw_transaction, hb]
    · rw [send_raw_transaction, hb]
      exact rfl
  refine ⟨fun _ _ _ _ _ _ => rfl, fun _ => rfl, fun _ => rfl, fun _ _ => rfl,
    fun _ _ => rfl, fun _ => rfl, fun _ => rfl, fun _ _ _ _ _ _ _ => rfl,
    fun _ _ => rfl, fun _ _ _ => rfl, fun _ _ => rfl, fun _ _ => rfl,
    fun _ => rfl, fun _ => rfl, hraw, fun t hdr outcome => hraw (msgpack_encode t) hdr outcome,
    fun _ _ => rfl⟩

/-- C10: for a path outside the no-auth allow-list, looking the auth
header name up in the header map actually sent always yields the
configured token — the auth entry is assigned last, overwriting any
entry of the same name from the configured or per-call extra headers. -/
theorem auth_header_overwrites (c : AlgodClient) (opt : List (String × String))
    (method requrl : String) (params : List (String × String))
    (data : Option (List Nat)) (outcome : HttpOutcome)
    (h : requrl ∉ no_auth) :
    dictLookup ((algod_request c method requrl params data opt outcome).request.headers)
      algod_auth_header = some c.algod_token := by
  show dictLookup (buildHeaders c opt requrl) algod_auth_header = some c.algod_token
  rw [buildHeaders]
  rw [if_neg h, dictUpdate_single]
  exact dictLookup_dictInsert_self _ _ _

/-- C10 witness: both the configured and the per-call extra headers
carry a clashing auth-header entry, and the token still wins. -/
theorem auth_header_overwrites_w :
    dictLookup ((algod_request ⟨"tok", "addr", [("X-Algo-API-Token", "evil")]⟩ "GET"
      "/status" [] none [("X-Algo-API-Token", "evil2")]
      HttpOutcome.transportFailure).request.headers)
      algod_auth_header = some "tok" :=
  auth_header_overwrites ⟨"tok", "addr", [("X-Algo-API-Token", "evil")]⟩
    [("X-Algo-API-Token", "evil2")] "GET" "/status" [] none
    HttpOutcome.transportFailure (by decide)

end Algod
